import Mathlib

/-!
Verification development for the nkz-module-data-hub BFF
(`src/backend/app/api/timeseries.py` and `src/backend/app/api/entities.py`).

The Python code is shallowly embedded: pure helpers become Lean functions,
Python floats become rationals (`Rat`) — IEEE-754 rounding is not modelled,
so properties that hinge on double rounding are outside this embedding —
Python `int` becomes `Int`,
fallible code returns `Except`/`Option`, and HTTP responses from upstream
services are passed in as explicit oracle parameters.  Strings are Lean
strings; `str.strip` / `str.lower` / `str.upper` are modelled over ASCII
(the characters actually occurring in source names and URNs).

Polars DataFrames are embedded as explicit column/row lists:
a decoded Arrow frame (`RawFrame`) carries its height, an optional
`timestamp` column and the remaining named columns; the merged outputs
(`GridDF` for grid/LOCF mode, `ADF` for outer-join mode) carry the
renamed `value_i` columns.  Cells are `Option Rat` (None = null).
-/

namespace DataHub

/-! ## Python string primitives (`str.strip`, `str.lower`, `str.upper`) -/

/-- ASCII whitespace recognised by Python's `str.strip()` (restricted to the
ASCII range, which is what source names and entity ids use). -/
def isPySpace (c : Char) : Bool :=
  decide (c.toNat = 32 ∨ c.toNat = 9 ∨ c.toNat = 10 ∨ c.toNat = 13 ∨
    c.toNat = 11 ∨ c.toNat = 12)

/-- Lower-case a single ASCII character, as Python's `str.lower()` does on
the ASCII subset. -/
def pyLowerChar (c : Char) : Char :=
  if 65 ≤ c.toNat ∧ c.toNat ≤ 90 then Char.ofNat (c.toNat + 32) else c

/-- Upper-case a single ASCII character, as Python's `str.upper()` does on
the ASCII subset. -/
def pyUpperChar (c : Char) : Char :=
  if 97 ≤ c.toNat ∧ c.toNat ≤ 122 then Char.ofNat (c.toNat - 32) else c

/-- `str.strip()` on a character list: drop leading and trailing whitespace. -/
def pyStripChars (l : List Char) : List Char :=
  (((l.dropWhile isPySpace).reverse.dropWhile isPySpace)).reverse

/-- Python `s.strip()`. -/
def pyStrip (s : String) : String := String.mk (pyStripChars s.data)

/-- Python `s.lower()`. -/
def pyLower (s : String) : String := String.mk (s.data.map pyLowerChar)

/-- Python `s.upper()`. -/
def pyUpper (s : String) : String := String.mk (s.data.map pyUpperChar)

/-- Python `s.startswith(p)` on character lists. -/
def charsStart : List Char → List Char → Bool
  | _, [] => true
  | [], _ :: _ => false
  | d :: ds, c :: cs => d = c && charsStart ds cs

/-- Python `s.startswith(p)`. -/
def pyStartsWith (s p : String) : Bool := charsStart s.data p.data

/-- Python `s.rstrip("/")`, used on adapter base URLs. -/
def rstripSlash (s : String) : String :=
  String.mk ((s.data.reverse.dropWhile (fun c => c = '/')).reverse)

/-! ## Shared string constants from `timeseries.py` -/

def timescaleName : String := "timescale"

def valueName : String := "value"

def valueUnderscoreName : String := "value_"

def timestampName : String := "timestamp"

def urnSchemeName : String := "urn:"

/-- Output column name `value_{i}`. -/
def valueColName (i : Nat) : String := valueUnderscoreName ++ toString i

/-! ## Series-descriptor normalisation
(`proxy_timeseries_align` lines 367-380, `proxy_export` lines 550-563)

A raw series item carries `entity_id` and `attribute` (already non-falsy, and
stringified by `str(...)`, which is the identity on strings) and an optional
`source` string.  `source` is normalised by
`(item.get("source") or "timescale")` followed by `.strip().lower()` and a
final fallback to `"timescale"` when the result is empty. -/

structure SeriesDescriptor where
  entity_id : String
  attr : String
  source : String
deriving DecidableEq, Repr

/-- Python's `item.get("source") or "timescale"`: `None` and the empty string
are falsy and default to `"timescale"`. -/
def orTimescale (src : Option String) : String :=
  match src with
  | none => timescaleName
  | some t => if t = "" then timescaleName else t

/-- `source = (item.get("source") or "timescale"); source = str(source).strip().lower() or "timescale"`. -/
def normSource (src : Option String) : String :=
  if pyLower (pyStrip (orTimescale src)) = "" then timescaleName
  else pyLower (pyStrip (orTimescale src))

/-- Normalisation of one series item (the loop body shared by
`proxy_timeseries_align` and `proxy_export`). -/
def normalizeItem (entityId attrName : String) (src : Option String) : SeriesDescriptor :=
  { entity_id := entityId, attr := attrName, source := normSource src }

/-- The test `(s.get("source") or "timescale").strip().lower() == "timescale"`
used at lines 421 and 612 of `timeseries.py`. -/
def isTimescaleSource (s : String) : Bool :=
  decide (pyLower (pyStrip (orTimescale (some s))) = timescaleName)

/-! ## NGSI-LD value accessor (`entities.py` lines 25-31) -/

/-- Duck-typed JSON value, as handled by `_get_value`. -/
inductive JsonVal where
  | null : JsonVal
  | str : String → JsonVal
  | num : Rat → JsonVal
  | boolean : Bool → JsonVal
  | arr : List JsonVal → JsonVal
  | obj : List (String × JsonVal) → JsonVal

/-- `_get_value`: `if obj is None: return None; if isinstance(obj, dict) and
"value" in obj: return obj["value"]; return obj`.  A Python dict has unique
keys, so `List.lookup` (first match) is exact. -/
def getValue (v : JsonVal) : JsonVal :=
  match v with
  | JsonVal.obj fields =>
    match List.lookup valueName fields with
    | some w => w
    | none => JsonVal.obj fields
  | x => x

/-! ## URN resolver (`_resolve_timeseries_entity_id`, lines 37-61)

The single upstream GET is replaced by an oracle argument describing the
response: status 200 with a parsed JSON body (whose
`timeseries_entity_id` entry is `none` when missing or JSON-null, and
`some ""` when present but empty), status 200 with an unparseable body,
or any non-200 status code. -/

inductive UpstreamResp where
  | success : Option String → UpstreamResp
  | successBadJson : UpstreamResp
  | failure : Nat → UpstreamResp
deriving DecidableEq, Repr

/-- `_resolve_timeseries_entity_id(base_url, entity_id)` given the upstream
response `resp`.  Returns `some id` for a resolved or passthrough id and
`none` for the "no timeseries location" outcome.  For inputs that never
reach the HTTP call (empty base, empty id, non-URN id) the result does not
depend on `resp`. -/
def resolveTimeseriesEntityId (baseUrl entityId : String) (resp : UpstreamResp) :
    Option String :=
  if baseUrl = "" ∨ entityId = "" then some entityId
  else
    let eid := pyStrip entityId
    if ¬ (pyStartsWith (pyLower eid) urnSchemeName = true) then some eid
    else
      match resp with
      | UpstreamResp.success tsid =>
        some (match tsid with
          | some t => if t = "" then eid else t
          | none => eid)
      | UpstreamResp.successBadJson => some eid
      | UpstreamResp.failure _ => none

/-! ## Provider registry (`_get_adapter_base_url`, lines 64-73) -/

/-- The environment key `TIMESERIES_ADAPTER_{s.upper()}_URL`. -/
def adapterEnvKey (s : String) : String :=
  "TIMESERIES_ADAPTER_" ++ pyUpper s ++ "_URL"

/-- `_get_adapter_base_url(source)`, with `PLATFORM_API_URL` (already
`rstrip("/")`-ed at import time) and the process environment passed
explicitly. -/
def getAdapterBaseUrl (platformApiUrl : String) (env : String → Option String)
    (source : String) : Option String :=
  let s := pyLower (pyStrip (orTimescale (some source)))
  if s = timescaleName then
    (if platformApiUrl = "" then none else some platformApiUrl)
  else
    let url := rstripSlash (Option.getD (env (adapterEnvKey s)) "")
    if url = "" then some (("http://" ++ source) ++ ":8000") else some url

/-! ## Decoded Arrow frames

`RawFrame` is a decoded polars DataFrame as the alignment code sees it:
`height` rows, possibly a `timestamp` column (with values `ts`, one per
row), and the remaining named columns `vals` in order.  A well-formed
frame has every column of length `height`.  An undecodable Arrow buffer
is `none : Option RawFrame`. -/

structure RawFrame where
  height : Nat
  hasTimestamp : Bool
  ts : List Rat
  vals : List (String × List (Option Rat))

def RawFrame.WF (f : RawFrame) : Prop :=
  f.ts.length = f.height ∧ ∀ p ∈ f.vals, p.2.length = f.height

/-! ## Time grid and grid/LOCF alignment
(`_align_multi_source_to_df_sync`, lines 81-119) -/

/-- `resolution = max(2, min(resolution, 10000))`. -/
def clampResolution (r : Int) : Int := max 2 (min r 10000)

/-- The uniform time grid
`[start_ts + (end_ts - start_ts) * i / (resolution - 1) for i in range(resolution)]`. -/
def buildGrid (startTs endTs : Rat) (resolution : Int) : List Rat :=
  let r := clampResolution resolution
  (List.range r.toNat).map
    (fun i : Nat => startTs + (endTs - startTs) * (i : Rat) / ((r : Rat) - 1))

/-- Row ordering by timestamp, used to model `df.sort("timestamp")` and the
post-join `base.sort("timestamp")`. -/
def rowLe {β : Type} (a b : Rat × β) : Prop := a.1 ≤ b.1

instance rowLeDecidable {β : Type} : DecidableRel (rowLe (β := β)) :=
  fun a b => inferInstanceAs (Decidable (a.1 ≤ b.1))

instance rowLeTotal {β : Type} : IsTotal (Rat × β) rowLe :=
  ⟨fun a b => le_total a.1 b.1⟩

instance rowLeTrans {β : Type} : IsTrans (Rat × β) rowLe :=
  ⟨fun _ _ _ => le_trans⟩

/-- Sort rows ascending by timestamp. -/
def sortRows {β : Type} (l : List (Rat × β)) : List (Rat × β) :=
  List.insertionSort rowLe l

/-- One cell of a backward as-of join: the value of the last row (of the
timestamp-sorted series) whose timestamp is `≤ t`; null when there is none.
This is exactly what `join_asof(..., strategy="backward")` computes per
grid row. -/
def asofCell (rows : List (Rat × Option Rat)) (t : Rat) : Option Rat :=
  match (rows.filter (fun r => decide (r.1 ≤ t))).getLast? with
  | none => none
  | some r => r.2

/-- Did buffer decoding/validation fail in grid mode?  True when Arrow
parsing failed, the frame is empty, or `timestamp`/`value` is missing
(the three `continue` branches at lines 102-110). -/
def gridBadBuf (buf : Option RawFrame) : Bool :=
  match buf with
  | none => true
  | some f =>
    decide (f.height = 0) || !f.hasTimestamp ||
      (List.lookup valueName f.vals).isNone

/-- The cells of output column `value_idx` for one input buffer in grid/LOCF
mode: all nulls for a bad buffer, otherwise the backward as-of join of the
timestamp-sorted `(timestamp, value)` rows onto the grid. -/
def gridColCells (grid : List Rat) (buf : Option RawFrame) : List (Option Rat) :=
  match buf with
  | none => List.replicate grid.length none
  | some f =>
    if f.height = 0 then List.replicate grid.length none
    else if !f.hasTimestamp then List.replicate grid.length none
    else
      match List.lookup valueName f.vals with
      | none => List.replicate grid.length none
      | some vcol =>
        let rows := sortRows (f.ts.zip vcol)
        grid.map (fun t => asofCell rows t)

/-- The value columns produced by the loop of `_align_multi_source_to_df_sync`:
column `value_i` comes from `arrow_bodies[i]` alone. -/
def alignCore (grid : List Rat) (bufs : List (Option RawFrame)) :
    List (String × List (Option Rat)) :=
  (List.enum bufs).map (fun p => (valueColName p.1, gridColCells grid p.2))

/-- Grid-mode output frame: the `timestamp` grid plus one `value_i` column
per input buffer. -/
structure GridDF where
  grid : List Rat
  cols : List (String × List (Option Rat))

/-- `_align_multi_source_to_df_sync(arrow_bodies, start_ts, end_ts, resolution)`. -/
def alignMultiSourceToDf (bufs : List (Option RawFrame)) (startTs endTs : Rat)
    (resolution : Int) : GridDF :=
  { grid := buildGrid startTs endTs resolution
    cols := alignCore (buildGrid startTs endTs resolution) bufs }

/-! ## Outer-join merge (`_gather_arrow_to_aligned_df`, lines 292-328) -/

def invalidArrowMsg : String := "Invalid Arrow IPC"

def noBuffersMsg : String := "No Arrow buffers to merge"

def tsRequiredMsg : String := "Arrow table must have 'timestamp' column"

def valueRequiredMsg : String := "Arrow table must have at least one value column"

def noNonEmptyMsg : String := "No non-empty DataFrames after parsing"

/-- A selected frame `df.select(["timestamp"] + value_cols)`: the retained
value-column names and the rows as (timestamp, cells) pairs. -/
structure SFrame where
  names : List String
  rows : List (Rat × List (Option Rat))

/-- The value columns kept by line 309:
`[c for c in df.columns if c != "timestamp" and (c == "value" or c.startswith("value_"))]`. -/
def selectValueCols (f : RawFrame) : List (String × List (Option Rat)) :=
  f.vals.filter (fun p =>
    !(decide (p.1 = timestampName)) &&
      (decide (p.1 = valueName) || pyStartsWith p.1 valueUnderscoreName))

/-- Row view of the selected columns of a frame. -/
def rawToRows (f : RawFrame) (cols : List (String × List (Option Rat))) :
    List (Rat × List (Option Rat)) :=
  (List.range f.height).map
    (fun k => (Option.getD (f.ts.get? k) 0,
      cols.map (fun c => Option.getD (c.2.get? k) none)))

/-- Validation/selection of one decoded buffer (lines 305-312):
empty frames are skipped (`ok none`), frames without `timestamp` or
without any value column raise (`error`). -/
def selectStep (f : RawFrame) : Except String (Option SFrame) :=
  if f.height = 0 then Except.ok none
  else if !f.hasTimestamp then Except.error tsRequiredMsg
  else
    let vcs := selectValueCols f
    if vcs.isEmpty then Except.error valueRequiredMsg
    else Except.ok (some { names := vcs.map Prod.fst, rows := rawToRows f vcs })

/-- The parse loop of lines 300-312: decode each buffer (an undecodable one
raises `Invalid Arrow IPC`), validate, and keep the non-empty frames. -/
def parseBuffers : List (Option RawFrame) → Except String (List SFrame)
  | [] => Except.ok []
  | none :: _ => Except.error invalidArrowMsg
  | some f :: rest =>
    match selectStep f with
    | Except.error e => Except.error e
    | Except.ok none => parseBuffers rest
    | Except.ok (some sf) =>
      match parseBuffers rest with
      | Except.error e => Except.error e
      | Except.ok l => Except.ok (sf :: l)

/-- An aligned outer-join frame: renamed value-column names plus
(timestamp, cells) rows. -/
structure ADF where
  names : List String
  rows : List (Rat × List (Option Rat))

def ADF.width (a : ADF) : Nat := a.names.length

def ADF.keys (a : ADF) : List Rat := a.rows.map Prod.fst

/-- Rename a selected frame's value columns to `value_{g} … value_{g+v-1}`
(lines 318 and 322-324). -/
def renameSF (g : Nat) (sf : SFrame) : ADF :=
  { names := (List.range sf.names.length).map (fun i => valueColName (g + i))
    rows := sf.rows }

/-- Rows of `base.join(next, on="timestamp", how="full", coalesce=True)`:
every left row is paired with each right row of equal timestamp (padded
with nulls when there is none), then the unmatched right rows follow,
padded on the left. -/
def joinFullRows (a b : ADF) : List (Rat × List (Option Rat)) :=
  (a.rows.flatMap (fun ra =>
    let ms := b.rows.filter (fun rb => decide (rb.1 = ra.1))
    if ms.isEmpty then [(ra.1, ra.2 ++ List.replicate b.width none)]
    else ms.map (fun rb => (ra.1, ra.2 ++ rb.2)))) ++
  ((b.rows.filter (fun rb => !(a.rows.any (fun ra => decide (ra.1 = rb.1))))).map
    (fun rb => (rb.1, List.replicate a.width none ++ rb.2)))

/-- `df.sort("timestamp")` on an aligned frame. -/
def sortADF (a : ADF) : ADF := { names := a.names, rows := sortRows a.rows }

/-- The merge loop of lines 320-328: join each further frame (renamed from
the running column counter `g`), sorting after every join and once more at
the end. -/
def mergeFrames (g : Nat) (base : ADF) : List SFrame → ADF
  | [] => sortADF base
  | sf :: rest =>
    mergeFrames (g + sf.names.length)
      (sortADF { names := base.names ++ (renameSF g sf).names
                 rows := joinFullRows base (renameSF g sf) })
      rest

/-- `_gather_arrow_to_aligned_df(arrow_bodies)` over decoded buffers. -/
def gatherArrowToAlignedDf (bufs : List (Option RawFrame)) : Except String ADF :=
  if bufs.isEmpty then Except.error noBuffersMsg
  else
    match parseBuffers bufs with
    | Except.error e => Except.error e
    | Except.ok [] => Except.error noNonEmptyMsg
    | Except.ok (sf :: rest) =>
      Except.ok (mergeFrames sf.names.length (renameSF 0 sf) rest)

/-! ## Scatter-gather coordinator (`proxy_timeseries_align`, lines 432-466) -/

/-- The 502 error body `f"Error obteniendo datos de {source}: {res!s}"`. -/
def gatherErrMsg (source err : String) : String :=
  (("Error obteniendo datos de " ++ source) ++ ": ") ++ err

def noSourcesMsg : String := "No se obtuvieron datos de ningún origen"

/-- The loop of lines 445-451: walk the per-source results in task order,
fail at the first exception, otherwise collect the Arrow bodies. -/
def collectGather {α : Type} : List (String × Except String α) → Except String (List α)
  | [] => Except.ok []
  | (src, Except.error e) :: _ => Except.error (gatherErrMsg src e)
  | (_, Except.ok b) :: rest =>
    match collectGather rest with
    | Except.error m => Except.error m
    | Except.ok l => Except.ok (b :: l)

/-- Route B response of `proxy_timeseries_align`: either an Arrow body built
from the aligned frame, or a JSON error with an HTTP status. -/
inductive AlignResult where
  | arrowResp : ADF → AlignResult
  | errorResp : Nat → String → AlignResult

/-- Lines 443-466: gather the per-source fetch results (bytes decoded as
`Option RawFrame`), fail 502 on any fetch error, fail 400 when nothing was
fetched, then merge (a `ValueError` in the merge is a 502). -/
def alignRouteBGather (pairs : List (String × Except String (Option RawFrame))) :
    AlignResult :=
  match collectGather pairs with
  | Except.error m => AlignResult.errorResp 502 m
  | Except.ok bodies =>
    if bodies.isEmpty then AlignResult.errorResp 400 noSourcesMsg
    else
      match gatherArrowToAlignedDf bodies with
      | Except.error e => AlignResult.errorResp 502 e
      | Except.ok adf => AlignResult.arrowResp adf

/-! ## Export URN pre-resolution (`proxy_export`, lines 569-579 and 609-615) -/

def entityNoTsMsg (eid : String) : String :=
  (("Entity " ++ eid) ++ " has no timeseries location")

/-- Outcome of the Route A pre-resolution loop (lines 571-579). -/
inductive RouteAOutcome where
  | proceed : List (String × String) → RouteAOutcome
  | abort404 : String → RouteAOutcome
deriving DecidableEq, Repr

/-- Route A (single-source timescale) export: resolve each descriptor in
order; the first `none` aborts the whole request with 404, otherwise the
resolved `(entity_id, attribute)` pairs are forwarded. -/
def exportRouteAResolve (resolve : String → Option String) :
    List SeriesDescriptor → RouteAOutcome
  | [] => RouteAOutcome.proceed []
  | s :: rest =>
    match resolve s.entity_id with
    | none => RouteAOutcome.abort404 (entityNoTsMsg s.entity_id)
    | some rid =>
      match exportRouteAResolve resolve rest with
      | RouteAOutcome.proceed l => RouteAOutcome.proceed ((rid, s.attr) :: l)
      | RouteAOutcome.abort404 m => RouteAOutcome.abort404 m

/-- The Route B pre-resolution loop of `proxy_export` (lines 609-615): when
the platform URL is configured, each timescale descriptor whose resolution
succeeds is replaced; a `none` resolution leaves the descriptor (its
original URN) in place.  No error is ever raised here. -/
def exportRouteBResolve (resolve : String → Option String)
    (platformConfigured : Bool) (series : List SeriesDescriptor) :
    List SeriesDescriptor :=
  if platformConfigured then
    series.map (fun s =>
      if isTimescaleSource s.source then
        match resolve s.entity_id with
        | some rid => { s with entity_id := rid }
        | none => s
      else s)
  else series

/-- What the Route B export path does after validation: it always proceeds
to the adapter fetch phase with the pre-resolved series (there is no 404
branch between lines 609 and 629). -/
inductive ExportOutcome where
  | fetchPhase : List SeriesDescriptor → ExportOutcome
  | abort404 : String → ExportOutcome
deriving DecidableEq, Repr

def exportRouteBStep (resolve : String → Option String)
    (platformConfigured : Bool) (series : List SeriesDescriptor) : ExportOutcome :=
  ExportOutcome.fetchPhase (exportRouteBResolve resolve platformConfigured series)

/-! # Theorems -/

/-! ## String-primitive lemmas -/

theorem dropWhile_head_false {p : Char → Bool} {l : List Char} {c : Char}
    (h : (l.dropWhile p).head? = some c) : p c = false := by
  induction l with
  | nil => simp at h
  | cons a t ih =>
    by_cases hpa : p a
    · rw [List.dropWhile_cons_of_pos hpa] at h
      exact ih h
    · rw [List.dropWhile_cons_of_neg hpa] at h
      simp at h
      subst h
      simpa using hpa

theorem dropWhile_eq_self_of_head {p : Char → Bool} {l : List Char}
    (h : ∀ c, l.head? = some c → p c = false) : l.dropWhile p = l := by
  cases l with
  | nil => rfl
  | cons a t =>
    have := h a (by rfl)
    rw [List.dropWhile_cons_of_neg (by simp [this])]

theorem stripChars_front (l : List Char) :
    pyStripChars l <+: l.dropWhile isPySpace := by
  have h : ((l.dropWhile isPySpace).reverse.dropWhile isPySpace) <:+
      (l.dropWhile isPySpace).reverse := List.dropWhile_suffix _
  have h2 := List.reverse_prefix.mpr h
  simpa [pyStripChars] using h2

theorem head?_of_isPrefix {α : Type} {x y : List α} {c : α}
    (h : x <+: y) (hx : x.head? = some c) : y.head? = some c := by
  obtain ⟨t, rfl⟩ := h
  cases x with
  | nil => simp at hx
  | cons a r => simp at hx; simp [hx]

theorem stripChars_head_false {l : List Char} {c : Char}
    (h : (pyStripChars l).head? = some c) : isPySpace c = false :=
  dropWhile_head_false (head?_of_isPrefix (stripChars_front l) h)

theorem stripChars_getLast_false {l : List Char} {c : Char}
    (h : (pyStripChars l).getLast? = some c) : isPySpace c = false := by
  unfold pyStripChars at h
  rw [List.getLast?_reverse] at h
  exact dropWhile_head_false h

theorem pyStripChars_idem (l : List Char) :
    pyStripChars (pyStripChars l) = pyStripChars l := by
  have hD : (pyStripChars l).dropWhile isPySpace = pyStripChars l :=
    dropWhile_eq_self_of_head (fun c hc => stripChars_head_false hc)
  conv_lhs => rw [pyStripChars, hD]
  have hR : (pyStripChars l).reverse.dropWhile isPySpace = (pyStripChars l).reverse :=
    dropWhile_eq_self_of_head (fun c hc => by
      rw [List.head?_reverse] at hc
      exact stripChars_getLast_false hc)
  rw [hR, List.reverse_reverse]

theorem pyStrip_idem (s : String) : pyStrip (pyStrip s) = pyStrip s := by
  simp [pyStrip, pyStripChars_idem]

theorem toNat_charOfNat {n : Nat} (h : Nat.isValidChar n) :
    (Char.ofNat n).toNat = n := by
  unfold Char.ofNat
  rw [dif_pos h]
  unfold Char.ofNatAux Char.toNat
  simp [UInt32.toNat]

theorem pyLowerChar_toNat_upper {c : Char} (h : 65 ≤ c.toNat ∧ c.toNat ≤ 90) :
    (pyLowerChar c).toNat = c.toNat + 32 := by
  unfold pyLowerChar
  rw [if_pos h]
  exact toNat_charOfNat (Or.inl (by omega))

theorem pyLowerChar_idem (c : Char) :
    pyLowerChar (pyLowerChar c) = pyLowerChar c := by
  by_cases h : 65 ≤ c.toNat ∧ c.toNat ≤ 90
  · have ht := pyLowerChar_toNat_upper h
    conv_lhs => rw [pyLowerChar]
    rw [if_neg (by omega)]
  · rw [show pyLowerChar c = c from by unfold pyLowerChar; rw [if_neg h]]
    unfold pyLowerChar
    rw [if_neg h]

theorem isPySpace_pyLowerChar (c : Char) :
    isPySpace (pyLowerChar c) = isPySpace c := by
  by_cases h : 65 ≤ c.toNat ∧ c.toNat ≤ 90
  · have ht := pyLowerChar_toNat_upper h
    have A : isPySpace (pyLowerChar c) = false := by
      simp only [isPySpace, ht, decide_eq_false_iff_not]
      omega
    have B : isPySpace c = false := by
      simp only [isPySpace, decide_eq_false_iff_not]
      omega
    rw [A, B]
  · rw [show pyLowerChar c = c from by unfold pyLowerChar; rw [if_neg h]]

theorem pyLower_idem (s : String) : pyLower (pyLower s) = pyLower s := by
  simp only [pyLower, List.map_map]
  congr 1
  exact List.map_congr_left (fun c _ => pyLowerChar_idem c)

theorem pyStripChars_map_pyLowerChar (l : List Char) :
    pyStripChars (l.map pyLowerChar) = (pyStripChars l).map pyLowerChar := by
  have hd : ∀ m : List Char,
      (m.map pyLowerChar).dropWhile isPySpace =
        (m.dropWhile isPySpace).map pyLowerChar := by
    intro m
    rw [List.dropWhile_map]
    rw [show (isPySpace ∘ pyLowerChar) = isPySpace from funext isPySpace_pyLowerChar]
  simp only [pyStripChars, ← List.map_reverse, hd]

theorem pyStrip_pyLower_comm (s : String) :
    pyStrip (pyLower s) = pyLower (pyStrip s) := by
  simp [pyStrip, pyLower, pyStripChars_map_pyLowerChar]

/-- The combined normalisation step `str(x).strip().lower()` is idempotent. -/
theorem stripLower_idem (s : String) :
    pyLower (pyStrip (pyLower (pyStrip s))) = pyLower (pyStrip s) := by
  rw [pyStrip_pyLower_comm, pyStrip_idem, pyLower_idem]

/-! ## Normalisation lemmas -/

theorem stripLower_timescale : pyLower (pyStrip timescaleName) = timescaleName := by decide

theorem normSource_ne_empty (src : Option String) : normSource src ≠ "" := by
  by_cases h : pyLower (pyStrip (orTimescale src)) = ""
  · rw [normSource, if_pos h]
    decide
  · rw [normSource, if_neg h]
    exact h

theorem normSource_some_fixed {w : String} (hw : w ≠ "")
    (hfix : pyLower (pyStrip w) = w) : normSource (some w) = w := by
  have h2 : orTimescale (some w) = w := by
    simp only [orTimescale]
    rw [if_neg hw]
  unfold normSource
  rw [h2, hfix, if_neg hw]

theorem normSource_idem (src : Option String) :
    normSource (some (normSource src)) = normSource src := by
  by_cases h : pyLower (pyStrip (orTimescale src)) = ""
  · have h1 : normSource src = timescaleName := by rw [normSource, if_pos h]
    rw [h1]
    decide
  · have h1 : normSource src = pyLower (pyStrip (orTimescale src)) := by
      rw [normSource, if_neg h]
    rw [h1]
    exact normSource_some_fixed h (stripLower_idem (orTimescale src))

/-! ## Claim C8 -/

/-- C8: descriptor normalisation is idempotent.  Re-normalising an
already-normalised descriptor (its `entity_id` and `attribute` are strings,
on which `str(...)` is the identity, and its `source` is the previously
normalised source string) returns it unchanged. -/
theorem c8_normalization_idempotent (entityId attrName : String) (src : Option String) :
    normalizeItem (normalizeItem entityId attrName src).entity_id
      (normalizeItem entityId attrName src).attr
      (some (normalizeItem entityId attrName src).source) =
    normalizeItem entityId attrName src := by
  simp only [normalizeItem]
  rw [normSource_idem]

/-! ## Claim C9 -/

/-- C9: `_get_value` unwraps exactly one level: a dict containing the key
`"value"` yields the associated value (with no further unwrapping), every
other input is returned unchanged, and in particular
`_get_value({"value": {"value": x}}) = {"value": x}`. -/
theorem c9_get_value_unwraps_one_level :
    (∀ fields w, List.lookup valueName fields = some w →
      getValue (JsonVal.obj fields) = w) ∧
    (∀ fields, List.lookup valueName fields = none →
      getValue (JsonVal.obj fields) = JsonVal.obj fields) ∧
    (∀ v : JsonVal, (∀ fields, v ≠ JsonVal.obj fields) → getValue v = v) ∧
    (∀ x : JsonVal,
      getValue (JsonVal.obj [(valueName, JsonVal.obj [(valueName, x)])]) =
        JsonVal.obj [(valueName, x)]) := by
  refine ⟨?_, ?_, ?_, ?_⟩
  · intro fields w h
    simp [getValue, h]
  · intro fields h
    simp [getValue, h]
  · intro v h
    cases v with
    | obj fields => exact absurd rfl (h fields)
    | null => rfl
    | str s => rfl
    | num q => rfl
    | boolean b => rfl
    | arr xs => rfl
  · intro x
    simp [getValue, List.lookup]

/-- Witness for C9: the first clause applied to a concrete one-field dict. -/
theorem c9_witness :
    List.lookup valueName [(valueName, JsonVal.null)] = some JsonVal.null ∧
    getValue (JsonVal.obj [(valueName, JsonVal.null)]) = JsonVal.null := by
  refine ⟨by simp [List.lookup], ?_⟩
  exact c9_get_value_unwraps_one_level.1 [(valueName, JsonVal.null)] JsonVal.null
    (by simp [List.lookup])

/-! ## Claim C3 -/

/-- Counterexample to C3 as stated.  (1) On an upstream error status other
than 204/404 (here 500) the resolver returns `none`, not the original URN.
(2) A non-URN input with surrounding whitespace is returned stripped, not
verbatim. -/
theorem c3_counterexample :
    resolveTimeseriesEntityId ("http://platform") ("urn:x") (UpstreamResp.failure 500) = none ∧
    resolveTimeseriesEntityId ("http://platform") ("urn:x") (UpstreamResp.failure 500) ≠
      some ("urn:x") ∧
    resolveTimeseriesEntityId ("http://platform") (" abc") (UpstreamResp.failure 500) =
      some ("abc") ∧
    resolveTimeseriesEntityId ("http://platform") (" abc") (UpstreamResp.failure 500) ≠
      some (" abc") := by
  refine ⟨by decide, by decide, by decide, by decide⟩

/-- C3 amended: with a configured base URL and non-empty input, the resolver
returns the *stripped* input when it is not URN-prefixed (case-insensitively),
returns the upstream `timeseries_entity_id` when a 200 response carries a
non-empty one (falling back to the stripped id when it is missing, empty, or
the body is unparseable), and returns `none` on *every* non-200 status —
including 204 and 404, but also any other error status. -/
theorem c3_amended (baseUrl entityId : String) (resp : UpstreamResp)
    (hb : baseUrl ≠ "") (he : entityId ≠ "") :
    (pyStartsWith (pyLower (pyStrip entityId)) urnSchemeName = false →
      resolveTimeseriesEntityId baseUrl entityId resp = some (pyStrip entityId)) ∧
    (pyStartsWith (pyLower (pyStrip entityId)) urnSchemeName = true →
      ((∀ t, t ≠ "" → resp = UpstreamResp.success (some t) →
          resolveTimeseriesEntityId baseUrl entityId resp = some t) ∧
        (resp = UpstreamResp.success none ∨ resp = UpstreamResp.success (some "") ∨
            resp = UpstreamResp.successBadJson →
          resolveTimeseriesEntityId baseUrl entityId resp = some (pyStrip entityId)) ∧
        (∀ code, resp = UpstreamResp.failure code →
          resolveTimeseriesEntityId baseUrl entityId resp = none))) := by
  have hbase : ¬ (baseUrl = "" ∨ entityId = "") := by
    intro hor
    cases hor with
    | inl h => exact hb h
    | inr h => exact he h
  constructor
  · intro hurn
    rw [resolveTimeseriesEntityId, if_neg hbase]
    simp [hurn]
  · intro hurn
    refine ⟨?_, ?_, ?_⟩
    · intro t ht hresp
      subst hresp
      rw [resolveTimeseriesEntityId, if_neg hbase]
      simp [hurn, ht]
    · intro hresp
      rcases hresp with h | h | h <;> subst h <;>
        (rw [resolveTimeseriesEntityId, if_neg hbase]; simp [hurn])
    · intro code hresp
      subst hresp
      rw [resolveTimeseriesEntityId, if_neg hbase]
      simp [hurn]

/-- Witness for C3 amended: a 204 upstream response for a URN input yields
`none`. -/
theorem c3_witness :
    ("http://p" : String) ≠ "" ∧ ("urn:e" : String) ≠ "" ∧
    pyStartsWith (pyLower (pyStrip ("urn:e"))) urnSchemeName = true ∧
    resolveTimeseriesEntityId ("http://p") ("urn:e") (UpstreamResp.failure 204) = none := by
  refine ⟨by decide, by decide, by decide, ?_⟩
  exact ((c3_amended ("http://p") ("urn:e") (UpstreamResp.failure 204)
    (by decide) (by decide)).2 (by decide)).2.2 204 rfl

/-! ## Claim C10 -/

/-- C10: for every source whose normalisation is not `timescale`, the adapter
base-URL lookup always returns a (non-empty) URL: the environment override
when it is set (after stripping trailing slashes), otherwise the DNS-style
fallback `http://{source}:8000`.  Hence the `if not base` error branches in
`_fetch_from_external_module` and `fetch_one_export` are unreachable for
such sources. -/
theorem c10_adapter_url_total (platformApiUrl : String) (env : String → Option String)
    (source : String)
    (h : pyLower (pyStrip (orTimescale (some source))) ≠ timescaleName) :
    (∃ u, getAdapterBaseUrl platformApiUrl env source = some u ∧ u ≠ "") ∧
    (rstripSlash (Option.getD
        (env (adapterEnvKey (pyLower (pyStrip (orTimescale (some source)))))) "") = "" →
      getAdapterBaseUrl platformApiUrl env source =
        some (("http://" ++ source) ++ ":8000")) ∧
    (∀ u, rstripSlash (Option.getD
        (env (adapterEnvKey (pyLower (pyStrip (orTimescale (some source)))))) "") = u →
      u ≠ "" → getAdapterBaseUrl platformApiUrl env source = some u) := by
  have hfb : (("http://" ++ source) ++ ":8000") ≠ "" := by
    intro hh
    have h2 := congrArg String.data hh
    simp [String.data_append] at h2
  refine ⟨?_, ?_, ?_⟩
  · by_cases hu : rstripSlash (Option.getD
        (env (adapterEnvKey (pyLower (pyStrip (orTimescale (some source)))))) "") = ""
    · refine ⟨("http://" ++ source) ++ ":8000", ?_, hfb⟩
      rw [getAdapterBaseUrl]
      simp only [if_neg h]
      rw [if_pos hu]
    · refine ⟨rstripSlash (Option.getD
        (env (adapterEnvKey (pyLower (pyStrip (orTimescale (some source)))))) ""), ?_, hu⟩
      rw [getAdapterBaseUrl]
      simp only [if_neg h]
      rw [if_neg hu]
  · intro hu
    rw [getAdapterBaseUrl]
    simp only [if_neg h]
    rw [if_pos hu]
  · intro u hu hne
    rw [getAdapterBaseUrl]
    simp only [if_neg h]
    rw [hu, if_neg hne]

/-- Witness for C10: source `weather` with an empty environment falls back to
`http://weather:8000`. -/
theorem c10_witness :
    pyLower (pyStrip (orTimescale (some ("weather")))) ≠ timescaleName ∧
    getAdapterBaseUrl "" (fun _ => none) ("weather") =
      some (("http://" ++ "weather") ++ ":8000") := by
  refine ⟨by decide, ?_⟩
  exact (c10_adapter_url_total "" (fun _ => none) ("weather") (by decide)).2.1 (by decide)

/-! ## Claim C4 -/

/-- Counterexample to C4 as stated: in the Route B export path, a timescale
descriptor whose URN resolution returns `none` does *not* fail the request
with 404 — the pre-resolution step proceeds to the adapter-fetch phase with
the original URN left in place. -/
theorem c4_counterexample :
    exportRouteBStep (fun _ => none) true
        [{ entity_id := "urn:x", attr := "t", source := timescaleName }] =
      ExportOutcome.fetchPhase
        [{ entity_id := "urn:x", attr := "t", source := timescaleName }] := by
  decide

/-- C4 amended: the Route B export pre-resolution never aborts; a timescale
descriptor whose resolution returns `none` is forwarded to the fetch phase
with its original `entity_id`.  The 404 unresolved-entity failure exists only
on Route A (single-source timescale export), where the first descriptor
resolving to `none` aborts the whole request before any fetch. -/
theorem c4_amended :
    (∀ (resolve : String → Option String) (cfg : Bool)
        (series : List SeriesDescriptor) (m : String),
      exportRouteBStep resolve cfg series ≠ ExportOutcome.abort404 m) ∧
    (∀ (resolve : String → Option String) (series : List SeriesDescriptor)
        (i : Nat) (s : SeriesDescriptor), series[i]? = some s →
      isTimescaleSource s.source = true → resolve s.entity_id = none →
      (exportRouteBResolve resolve true series)[i]? = some s) ∧
    (∀ (resolve : String → Option String) (s : SeriesDescriptor)
        (rest : List SeriesDescriptor), resolve s.entity_id = none →
      exportRouteAResolve resolve (s :: rest) =
        RouteAOutcome.abort404 (entityNoTsMsg s.entity_id)) := by
  refine ⟨?_, ?_, ?_⟩
  · intro resolve cfg series m
    simp [exportRouteBStep]
  · intro resolve series i s hget hts hres
    rw [exportRouteBResolve, if_pos rfl]
    rw [List.getElem?_map, hget]
    simp [hts, hres]
  · intro resolve s rest hres
    rw [exportRouteAResolve]
    rw [hres]

/-- Witness for C4 amended: concrete unresolved timescale descriptor on
Route B is forwarded unchanged. -/
theorem c4_witness :
    ([{ entity_id := "urn:x", attr := "t", source := timescaleName }] :
        List SeriesDescriptor)[0]? =
      some { entity_id := "urn:x", attr := "t", source := timescaleName } ∧
    isTimescaleSource timescaleName = true ∧
    (exportRouteBResolve (fun _ => none) true
        [{ entity_id := "urn:x", attr := "t", source := timescaleName }])[0]? =
      some { entity_id := "urn:x", attr := "t", source := timescaleName } := by
  refine ⟨rfl, by decide, ?_⟩
  exact c4_amended.2.1 (fun _ => none)
    [{ entity_id := "urn:x", attr := "t", source := timescaleName }] 0
    { entity_id := "urn:x", attr := "t", source := timescaleName }
    rfl (by decide) rfl

/-! ## Claim C7 -/

theorem collectGather_error {α : Type} (pairs : List (String × Except String α))
    (h : ∃ p ∈ pairs, ∃ e, p.2 = Except.error e) :
    ∃ src e, (src, Except.error e) ∈ pairs ∧
      collectGather pairs = Except.error (gatherErrMsg src e) := by
  induction pairs with
  | nil => simp at h
  | cons hd rest ih =>
    obtain ⟨src0, res0⟩ := hd
    cases res0 with
    | error e =>
      exact ⟨src0, e, List.mem_cons_self _ _, by rw [collectGather]⟩
    | ok b =>
      have hrest : ∃ p ∈ rest, ∃ e, p.2 = Except.error e := by
        obtain ⟨p, hp, e, he⟩ := h
        rcases List.mem_cons.mp hp with h1 | h1
        · subst h1
          simp at he
        · exact ⟨p, h1, e, he⟩
      obtain ⟨src, e, hmem, hcol⟩ := ih hrest
      refine ⟨src, e, List.mem_cons_of_mem _ hmem, ?_⟩
      rw [collectGather, hcol]

/-- C7: if any per-source fetch fails, `proxy_timeseries_align` Route B
answers 502 with the failing source named in the error body
(`Error obteniendo datos de {source}: …`), and never returns an Arrow
response built from the successful groups. -/
theorem c7_gather_failure_aborts
    (pairs : List (String × Except String (Option RawFrame)))
    (h : ∃ p ∈ pairs, ∃ e, p.2 = Except.error e) :
    ∃ src e, (src, Except.error e) ∈ pairs ∧
      alignRouteBGather pairs =
        AlignResult.errorResp 502 (gatherErrMsg src e) ∧
      ∀ adf, alignRouteBGather pairs ≠ AlignResult.arrowResp adf := by
  obtain ⟨src, e, hmem, hcol⟩ := collectGather_error pairs h
  refine ⟨src, e, hmem, ?_, ?_⟩
  · rw [alignRouteBGather, hcol]
  · intro adf hne
    rw [alignRouteBGather, hcol] at hne
    exact AlignResult.noConfusion hne

/-- Witness for C7: a single failed source group. -/
theorem c7_witness :
    (∃ p ∈ ([(("weather" : String), (Except.error "boom" : Except String (Option RawFrame)))]),
      ∃ e, p.2 = Except.error e) ∧
    ∃ src e,
      ((src : String), (Except.error e : Except String (Option RawFrame))) ∈
        [(("weather" : String), (Except.error "boom" : Except String (Option RawFrame)))] ∧
      alignRouteBGather [(("weather" : String), (Except.error "boom" : Except String (Option RawFrame)))] =
        AlignResult.errorResp 502 (gatherErrMsg src e) ∧
      ∀ adf, alignRouteBGather [(("weather" : String), (Except.error "boom" : Except String (Option RawFrame)))] ≠
        AlignResult.arrowResp adf := by
  refine ⟨⟨_, List.mem_cons_self _ _, "boom", rfl⟩, ?_⟩
  exact c7_gather_failure_aborts _ ⟨_, List.mem_cons_self _ _, "boom", rfl⟩

/-! ## Time-grid invariants of the exact-rational idealization

`_align_multi_source_to_df_sync` computes the grid in IEEE-754 double
precision; `buildGrid` idealises that arithmetic over `Rat`.  The exact
endpoint equality and strict monotonicity proved below are properties of
this idealization only: under double rounding the program itself can end
at a point unequal to `end_ts` (e.g. `start_ts=0.0, end_ts=0.1,
resolution=4` ends at `0.10000000000000002`) and can repeat grid points
on sub-ulp ranges, so these invariants are not claimed of the program. -/

/-- Exact-rational grid invariants: `max(2, min(resolution, 10000))` rows,
first point `start_ts`, last point `end_ts`, strictly increasing, point `i`
equal to `start_ts + (end_ts - start_ts) * i / (resolution_clamped - 1)`. -/
theorem buildGridRat_invariants (bufs : List (Option RawFrame)) (startTs endTs : Rat)
    (r : Int) (h : startTs < endTs) :
    (alignMultiSourceToDf bufs startTs endTs r).grid.length = (clampResolution r).toNat ∧
    (alignMultiSourceToDf bufs startTs endTs r).grid.head? = some startTs ∧
    (alignMultiSourceToDf bufs startTs endTs r).grid.getLast? = some endTs ∧
    (alignMultiSourceToDf bufs startTs endTs r).grid.Pairwise (fun a b => a < b) ∧
    ∀ i : Nat, i < (clampResolution r).toNat →
      (alignMultiSourceToDf bufs startTs endTs r).grid[i]? =
        some (startTs + (endTs - startTs) * i / ((clampResolution r : Rat) - 1)) := by
  have hgrid : (alignMultiSourceToDf bufs startTs endTs r).grid =
      buildGrid startTs endTs r := rfl
  have hr2 : (2 : Int) ≤ clampResolution r := le_max_left _ _
  have hrn : 2 ≤ (clampResolution r).toNat := by omega
  have hcast : ((clampResolution r).toNat : Rat) = ((clampResolution r : Int) : Rat) := by
    have h0 := Int.toNat_of_nonneg (le_trans (by norm_num) hr2)
    exact_mod_cast congrArg (fun z : Int => (z : Rat)) h0
  have hd1 : (1 : Rat) ≤ (clampResolution r : Rat) - 1 := by
    have h2 : (2 : Rat) ≤ (clampResolution r : Rat) := by exact_mod_cast hr2
    linarith
  have hdpos : (0 : Rat) < (clampResolution r : Rat) - 1 := lt_of_lt_of_le one_pos hd1
  have hdne : ((clampResolution r : Rat) - 1) ≠ 0 := ne_of_gt hdpos
  have hms : (0 : Rat) < endTs - startTs := sub_pos.mpr h
  obtain ⟨m, hm⟩ : ∃ m, (clampResolution r).toNat = m + 1 := ⟨_, (by omega :
    (clampResolution r).toNat = ((clampResolution r).toNat - 1) + 1)⟩
  refine ⟨?_, ?_, ?_, ?_, ?_⟩
  · rw [hgrid]
    simp [buildGrid]
  · rw [hgrid]
    rw [buildGrid]
    simp only [hm, List.range_succ_eq_map]
    simp
  · rw [hgrid]
    rw [buildGrid]
    simp only [hm, List.range_succ, List.map_append, List.map_cons, List.map_nil]
    rw [List.getLast?_concat]
    have hmq : (m : Rat) = (clampResolution r : Rat) - 1 := by
      have h3 : ((m + 1 : Nat) : Rat) = (clampResolution r : Rat) := by
        rw [← hm, hcast]
      push_cast at h3
      linarith
    rw [hmq]
    rw [mul_div_assoc, div_self hdne, mul_one]
    rw [add_sub_cancel]
  · rw [hgrid]
    rw [buildGrid]
    refine List.Pairwise.map _ ?_ (List.pairwise_lt_range _)
    intro a b hab
    have hc : (a : Rat) < (b : Rat) := by exact_mod_cast hab
    have hnum : (endTs - startTs) * a < (endTs - startTs) * b :=
      mul_lt_mul_of_pos_left hc hms
    have hdiv : (endTs - startTs) * a / ((clampResolution r : Rat) - 1) <
        (endTs - startTs) * b / ((clampResolution r : Rat) - 1) :=
      div_lt_div_of_pos_right hnum hdpos
    exact add_lt_add_left hdiv startTs
  · intro i hi
    rw [hgrid]
    rw [buildGrid]
    simp [List.getElem?_range hi]

/-! ## Claim C6 -/

theorem sortRows_perm {β : Type} (l : List (Rat × β)) : (sortRows l).Perm l :=
  List.perm_insertionSort _ _

theorem sortRows_sorted {β : Type} (l : List (Rat × β)) : (sortRows l).Sorted rowLe :=
  List.sorted_insertionSort _ _

theorem sorted_getLast?_max {β : Type} :
    ∀ {l : List (Rat × β)}, l.Sorted rowLe → ∀ {m}, l.getLast? = some m →
      ∀ x ∈ l, x.1 ≤ m.1 := by
  intro l
  induction l with
  | nil =>
    intro _ m hm
    simp at hm
  | cons a t ih =>
    intro hs m hm x hx
    rcases List.sorted_cons.mp hs with ⟨hrel, hts⟩
    cases t with
    | nil =>
      simp at hm
      subst hm
      rcases List.mem_singleton.mp hx with rfl
      exact le_refl _
    | cons b t2 =>
      rw [List.getLast?_cons_cons] at hm
      rcases List.mem_cons.mp hx with rfl | hx2
      · exact hrel m (List.mem_of_getLast?_eq_some hm)
      · exact ih hts hm x hx2

/-- Keys of a zip form a sublist of the left operand. -/
theorem zip_keys_sublist {β : Type} :
    ∀ (l : List Rat) (l2 : List β), List.Sublist ((l.zip l2).map Prod.fst) l
  | [], _ => by simp
  | _ :: _, [] => by simp
  | a :: t, b :: t2 => by
    rw [List.zip_cons_cons, List.map_cons]
    exact (zip_keys_sublist t t2).cons₂ a

/-- Behaviour of one backward as-of cell over the sorted rows: on a list
with distinct timestamps, the cell is null when no row is at or before `t`,
and otherwise is the value of the unique dominating row. -/
theorem asofCell_spec {rows zipd : List (Rat × Option Rat)} (hperm : rows.Perm zipd)
    (hs : rows.Sorted rowLe) (hn : (zipd.map Prod.fst).Nodup) (t : Rat) :
    ((∀ ro ∈ zipd, ¬ ro.1 ≤ t) → asofCell rows t = none) ∧
    (∀ ro ∈ zipd, ro.1 ≤ t → (∀ ro2 ∈ zipd, ro2.1 ≤ t → ro2.1 ≤ ro.1) →
      asofCell rows t = ro.2) := by
  constructor
  · intro hno
    have hfil : rows.filter (fun r => decide (r.1 ≤ t)) = [] := by
      rw [List.filter_eq_nil_iff]
      intro a ha
      simpa using hno a (hperm.mem_iff.mp ha)
    rw [asofCell, hfil]
    rfl
  · intro ro hro hle hmax
    have hrofl : ro ∈ rows.filter (fun r => decide (r.1 ≤ t)) :=
      List.mem_filter.mpr ⟨hperm.mem_iff.mpr hro, by simpa using hle⟩
    have hne : rows.filter (fun r => decide (r.1 ≤ t)) ≠ [] :=
      List.ne_nil_of_mem hrofl
    obtain ⟨m, hm⟩ : ∃ m, (rows.filter (fun r => decide (r.1 ≤ t))).getLast? = some m := by
      cases hgl : (rows.filter (fun r => decide (r.1 ≤ t))).getLast? with
      | none => exact absurd (List.getLast?_eq_none_iff.mp hgl) hne
      | some m => exact ⟨m, rfl⟩
    have hmfl := List.mem_filter.mp (List.mem_of_getLast?_eq_some hm)
    have hmzip : m ∈ zipd := hperm.mem_iff.mp hmfl.1
    have hmle : m.1 ≤ t := by simpa using hmfl.2
    have hfs : (rows.filter (fun r => decide (r.1 ≤ t))).Sorted rowLe :=
      List.Pairwise.sublist (List.filter_sublist rows) hs
    have h1 : ro.1 ≤ m.1 := sorted_getLast?_max hfs hm ro hrofl
    have h2 : m.1 ≤ ro.1 := hmax m hmzip hmle
    have heq : m = ro :=
      List.inj_on_of_nodup_map hn hmzip hro (le_antisymm h2 h1)
    rw [asofCell, hm, heq]

theorem gridColCells_bad {grid : List Rat} {b : Option RawFrame}
    (h : gridBadBuf b = true) :
    gridColCells grid b = List.replicate grid.length none := by
  cases b with
  | none => rfl
  | some f =>
    simp only [gridColCells]
    by_cases h0 : f.height = 0
    · rw [if_pos h0]
    · rw [if_neg h0]
      by_cases h1 : f.hasTimestamp
      · by_cases h3 : List.lookup valueName f.vals = none
        · rw [if_neg (by simp [h1]), h3]
        · exfalso
          simp only [gridBadBuf] at h
          rcases Option.ne_none_iff_exists'.mp h3 with ⟨v, hv⟩
          rw [hv, h1] at h
          simp [h0] at h
      · rw [if_pos (by simp [h1])]

theorem gridColCells_good {grid : List Rat} {f : RawFrame} (h0 : f.height ≠ 0)
    (h1 : f.hasTimestamp = true) {vcol : List (Option Rat)}
    (h2 : List.lookup valueName f.vals = some vcol) :
    gridColCells grid (some f) =
      grid.map (fun t => asofCell (sortRows (f.ts.zip vcol)) t) := by
  simp only [gridColCells]
  rw [if_neg h0, if_neg (by simp [h1]), h2]

theorem alignCore_getElem? (grid : List Rat) (bufs : List (Option RawFrame)) (j : Nat) :
    (alignCore grid bufs)[j]? =
      (bufs[j]?).map (fun b => (valueColName j, gridColCells grid b)) := by
  simp only [alignCore, List.enum, List.getElem?_map, List.getElem?_enumFrom,
    Nat.zero_add, Option.map_map]
  cases bufs[j]? <;> simp

/-- C6: in grid/LOCF mode, a buffer at position `i` that fails decoding, is
empty, or lacks `timestamp`/`value` produces an all-null column `value_i`;
every other column is exactly what it would be with buffer `i` replaced by
anything else (columns depend only on their own buffer); and a valid buffer
with distinct timestamps yields, at each grid point `t`, the value of the
row with the largest source timestamp `≤ t` (null when no such row exists). -/
theorem c6_locf_per_buffer (bufs : List (Option RawFrame)) (startTs endTs : Rat)
    (r : Int) (i : Nat) (hi : i < bufs.length) :
    (gridBadBuf bufs[i] = true →
      (alignMultiSourceToDf bufs startTs endTs r).cols[i]? =
        some (valueColName i,
          List.replicate (alignMultiSourceToDf bufs startTs endTs r).grid.length none)) ∧
    (∀ (b2 : Option RawFrame) (j : Nat), j ≠ i →
      (alignMultiSourceToDf (bufs.set i b2) startTs endTs r).cols[j]? =
        (alignMultiSourceToDf bufs startTs endTs r).cols[j]?) ∧
    (∀ f : RawFrame, bufs[i] = some f → f.height ≠ 0 → f.hasTimestamp = true →
      ∀ vcol, List.lookup valueName f.vals = some vcol → f.ts.Nodup →
      ∃ cells, (alignMultiSourceToDf bufs startTs endTs r).cols[i]? =
          some (valueColName i, cells) ∧
        ∀ (k : Nat) (t : Rat),
          (alignMultiSourceToDf bufs startTs endTs r).grid[k]? = some t →
          ((∀ ro ∈ f.ts.zip vcol, ¬ ro.1 ≤ t) → cells[k]? = some none) ∧
          (∀ ro ∈ f.ts.zip vcol, ro.1 ≤ t →
            (∀ ro2 ∈ f.ts.zip vcol, ro2.1 ≤ t → ro2.1 ≤ ro.1) →
            cells[k]? = some ro.2)) := by
  have hcols : (alignMultiSourceToDf bufs startTs endTs r).cols =
      alignCore (buildGrid startTs endTs r) bufs := rfl
  have hgrid : (alignMultiSourceToDf bufs startTs endTs r).grid =
      buildGrid startTs endTs r := rfl
  refine ⟨?_, ?_, ?_⟩
  · intro hbad
    rw [hcols, alignCore_getElem?, List.getElem?_eq_getElem hi]
    simp only [Option.map_some']
    rw [gridColCells_bad hbad, hgrid]
  · intro b2 j hji
    have hset : (bufs.set i b2)[j]? = bufs[j]? :=
      List.getElem?_set_ne (Ne.symm hji)
    have h1 : (alignMultiSourceToDf (bufs.set i b2) startTs endTs r).cols =
        alignCore (buildGrid startTs endTs r) (bufs.set i b2) := rfl
    rw [h1, hcols, alignCore_getElem?, alignCore_getElem?, hset]
  · intro f hf h0 h1 vcol h2 hnd
    refine ⟨(buildGrid startTs endTs r).map
      (fun t => asofCell (sortRows (f.ts.zip vcol)) t), ?_, ?_⟩
    · rw [hcols, alignCore_getElem?, List.getElem?_eq_getElem hi, hf]
      simp only [Option.map_some']
      rw [gridColCells_good h0 h1 h2]
    · intro k t hk
      rw [hgrid] at hk
      have hcell : ((buildGrid startTs endTs r).map
          (fun t => asofCell (sortRows (f.ts.zip vcol)) t))[k]? =
          some (asofCell (sortRows (f.ts.zip vcol)) t) := by
        rw [List.getElem?_map, hk]
        rfl
      have hkeys : ((f.ts.zip vcol).map Prod.fst).Nodup :=
        List.Sublist.nodup (zip_keys_sublist f.ts vcol) hnd
      have hspec := asofCell_spec (sortRows_perm (f.ts.zip vcol))
        (sortRows_sorted (f.ts.zip vcol)) hkeys t
      constructor
      · intro hno
        rw [hcell, hspec.1 hno]
      · intro ro hro hle hmax
        rw [hcell, hspec.2 ro hro hle hmax]

/-- Witness for C6: a single undecodable buffer yields an all-null column. -/
theorem c6_witness :
    gridBadBuf (([(none : Option RawFrame)])[0]) = true ∧
    (alignMultiSourceToDf [none] 0 1 2).cols[0]? =
      some (valueColName 0,
        List.replicate (alignMultiSourceToDf [none] 0 1 2).grid.length none) := by
  refine ⟨by decide, ?_⟩
  exact (c6_locf_per_buffer [none] 0 1 2 0 (by norm_num)).1 (by decide)

/-! ## Claim C1 -/

theorem alignCore_names (grid : List Rat) (bufs : List (Option RawFrame)) :
    (alignCore grid bufs).map Prod.fst = (List.range bufs.length).map valueColName := by
  unfold alignCore
  rw [List.map_map]
  have h1 : (Prod.fst ∘ fun p : Nat × Option RawFrame =>
      (valueColName p.1, gridColCells grid p.2)) = (valueColName ∘ Prod.fst) := rfl
  rw [h1, ← List.map_map, List.enum_map_fst]

theorem renameSF_names (g : Nat) (sf : SFrame) :
    (renameSF g sf).names = (List.range sf.names.length).map (fun i => valueColName (g + i)) :=
  rfl

theorem mergeFrames_names :
    ∀ (frames : List SFrame) (g : Nat) (base : ADF),
      base.names = (List.range g).map valueColName →
      (mergeFrames g base frames).names =
        (List.range (g + (frames.map (fun sf => sf.names.length)).sum)).map valueColName := by
  intro frames
  induction frames with
  | nil =>
    intro g base hb
    rw [mergeFrames]
    simpa [sortADF] using hb
  | cons sf rest ih =>
    intro g base hb
    rw [mergeFrames]
    have hnew : (sortADF (ADF.mk (base.names ++ (renameSF g sf).names)
        (joinFullRows base (renameSF g sf)))).names =
        (List.range (g + sf.names.length)).map valueColName := by
      simp only [sortADF]
      rw [hb, renameSF_names, List.range_add, List.map_append, List.map_map]
      rfl
    rw [ih (g + sf.names.length) _ hnew]
    rw [List.map_cons, List.sum_cons, Nat.add_assoc]

theorem gather_names (bufs : List (Option RawFrame)) (adf : ADF)
    (h : gatherArrowToAlignedDf bufs = Except.ok adf) :
    ∃ frames, parseBuffers bufs = Except.ok frames ∧
      adf.names = (List.range ((frames.map (fun sf => sf.names.length)).sum)).map
        valueColName := by
  rw [gatherArrowToAlignedDf] at h
  by_cases hb : bufs.isEmpty
  · rw [if_pos hb] at h
    simp at h
  · rw [if_neg hb] at h
    cases hp : parseBuffers bufs with
    | error e =>
      rw [hp] at h
      simp at h
    | ok frames =>
      rw [hp] at h
      cases frames with
      | nil => simp at h
      | cons sf rest =>
        have hadf : mergeFrames sf.names.length (renameSF 0 sf) rest = adf := by
          simpa using h
        refine ⟨sf :: rest, rfl, ?_⟩
        have hbase : (renameSF 0 sf).names =
            (List.range sf.names.length).map valueColName := by
          rw [renameSF_names]
          exact List.map_congr_left (fun i _ => by rw [Nat.zero_add])
        rw [← hadf, mergeFrames_names rest sf.names.length _ hbase]
        rw [List.map_cons, List.sum_cons]

/-- Counterexample to C1 as stated: two descriptors fetched as two buffers,
the first of which decodes to an empty frame.  The empty buffer is skipped
by the outer-join merge, so the output has a single value column — not
`n = 2` columns. -/
theorem c1_counterexample :
    gatherArrowToAlignedDf
        [some { height := 0, hasTimestamp := true, ts := [], vals := [(valueName, [])] },
         some { height := 1, hasTimestamp := true, ts := [5], vals := [(valueName, [some 2])] }] =
      Except.ok { names := [valueColName 0], rows := [(5, [some 2])] } ∧
    [valueColName 0].length ≠ 2 := by
  exact ⟨rfl, by decide⟩

/-- C1 amended: in grid/LOCF mode the output has exactly one value column per
input buffer, named `value_0 … value_{n-1}` in buffer (= request) order.  In
outer-join mode the value columns are `value_0 … value_{N-1}` numbered
sequentially over the accepted (non-empty) buffers' value columns in buffer
order; `N` is the total width of the accepted buffers, which is smaller than
the number of descriptors when a buffer is empty. -/
theorem c1_value_column_naming :
    (∀ (bufs : List (Option RawFrame)) (startTs endTs : Rat) (r : Int),
      (alignMultiSourceToDf bufs startTs endTs r).cols.map Prod.fst =
        (List.range bufs.length).map valueColName) ∧
    (∀ (bufs : List (Option RawFrame)) (adf : ADF),
      gatherArrowToAlignedDf bufs = Except.ok adf →
      ∃ frames, parseBuffers bufs = Except.ok frames ∧
        adf.names =
          (List.range ((frames.map (fun sf => sf.names.length)).sum)).map valueColName) := by
  constructor
  · intro bufs startTs endTs r
    exact alignCore_names (buildGrid startTs endTs r) bufs
  · intro bufs adf h
    exact gather_names bufs adf h

/-- Witness for C1: one single-column buffer yields the column `value_0`. -/
theorem c1_witness :
    gatherArrowToAlignedDf
        [some { height := 1, hasTimestamp := true, ts := [5], vals := [(valueName, [some 2])] }] =
      Except.ok { names := [valueColName 0], rows := [(5, [some 2])] } ∧
    ∃ frames, parseBuffers
        [some { height := 1, hasTimestamp := true, ts := [5], vals := [(valueName, [some 2])] }] =
        Except.ok frames ∧
      ({ names := [valueColName 0], rows := [(5, [some 2])] } : ADF).names =
        (List.range ((frames.map (fun sf => sf.names.length)).sum)).map valueColName := by
  refine ⟨rfl, ?_⟩
  exact c1_value_column_naming.2
    [some { height := 1, hasTimestamp := true, ts := [5], vals := [(valueName, [some 2])] }]
    { names := [valueColName 0], rows := [(5, [some 2])] } rfl

/-! ## Claim C2 -/

theorem filter_key_unique {β : Type} :
    ∀ {rows : List (Rat × β)}, (rows.map Prod.fst).Nodup → ∀ q : Rat,
      rows.filter (fun rb => decide (rb.1 = q)) = [] ∨
      ∃ r, rows.filter (fun rb => decide (rb.1 = q)) = [r] ∧ r.1 = q := by
  intro rows
  induction rows with
  | nil =>
    intro _ q
    left
    rfl
  | cons a t ih =>
    intro hn q
    rw [List.map_cons, List.nodup_cons] at hn
    by_cases ha : a.1 = q
    · right
      refine ⟨a, ?_, ha⟩
      rw [List.filter_cons_of_pos (by simpa using ha)]
      have ht : t.filter (fun rb => decide (rb.1 = q)) = [] := by
        rw [List.filter_eq_nil_iff]
        intro b hb hbq
        apply hn.1
        rw [ha]
        exact List.mem_map.mpr ⟨b, hb, by simpa using hbq⟩
      rw [ht]
    · rw [List.filter_cons_of_neg (by simpa using ha)]
      exact ih hn.2 q

theorem flat_part_keys {w : Nat} {brows : List (Rat × List (Option Rat))}
    (hb : (brows.map Prod.fst).Nodup) (arows : List (Rat × List (Option Rat))) :
    ((arows.flatMap (fun ra =>
      let ms := brows.filter (fun rb => decide (rb.1 = ra.1))
      if ms.isEmpty then [(ra.1, ra.2 ++ List.replicate w none)]
      else ms.map (fun rb => (ra.1, ra.2 ++ rb.2)))).map Prod.fst) =
      arows.map Prod.fst := by
  induction arows with
  | nil => rfl
  | cons ra t ih =>
    rw [List.flatMap_cons, List.map_append, ih, List.map_cons]
    rcases filter_key_unique hb ra.1 with h0 | ⟨r, hr, hrq⟩
    · simp only [h0]
      rfl
    · simp only [hr]
      rfl

theorem joinFullRows_keys (a b : ADF) (hb : (b.rows.map Prod.fst).Nodup) :
    (joinFullRows a b).map Prod.fst =
      a.keys ++ (b.rows.filter
        (fun rb => !(a.rows.any (fun ra => decide (ra.1 = rb.1))))).map Prod.fst := by
  unfold joinFullRows ADF.keys
  rw [List.map_append]
  congr 1
  · exact flat_part_keys hb a.rows
  · rw [List.map_map]
    rfl

theorem joinFullRows_keys_spec (a b : ADF) (ha : a.keys.Nodup)
    (hb : (b.rows.map Prod.fst).Nodup) :
    ((joinFullRows a b).map Prod.fst).Nodup ∧
    (∀ q, q ∈ (joinFullRows a b).map Prod.fst ↔
      q ∈ a.keys ∨ q ∈ b.rows.map Prod.fst) := by
  rw [joinFullRows_keys a b hb]
  constructor
  · rw [List.nodup_append]
    refine ⟨ha, List.Sublist.nodup (List.Sublist.map _ (List.filter_sublist _)) hb, ?_⟩
    intro x hxA hxF
    obtain ⟨rb, hrb, rfl⟩ := List.mem_map.mp hxF
    have hcond := (List.mem_filter.mp hrb).2
    simp only [Bool.not_eq_eq_eq_not, Bool.not_true, List.any_eq_false,
      decide_eq_false_iff_not] at hcond
    obtain ⟨ra, hra, hfst⟩ := List.mem_map.mp hxA
    exact hcond ra hra (by rw [hfst]; simp)
  · intro q
    rw [List.mem_append]
    constructor
    · rintro (h | h)
      · exact Or.inl h
      · obtain ⟨rb, hrb, rfl⟩ := List.mem_map.mp h
        exact Or.inr (List.mem_map_of_mem _ (List.mem_filter.mp hrb).1)
    · rintro (h | h)
      · exact Or.inl h
      · by_cases hq : q ∈ a.keys
        · exact Or.inl hq
        · right
          obtain ⟨rb, hrb, rfl⟩ := List.mem_map.mp h
          refine List.mem_map_of_mem _ (List.mem_filter.mpr ⟨hrb, ?_⟩)
          simp only [Bool.not_eq_eq_eq_not, Bool.not_true, List.any_eq_false,
            decide_eq_false_iff_not]
          intro ra hra heq
          exact hq (List.mem_map.mpr ⟨ra, hra, of_decide_eq_true heq⟩)

theorem sortADF_keys_perm (a : ADF) : (sortADF a).keys.Perm a.keys :=
  (sortRows_perm a.rows).map Prod.fst

theorem mergeFrames_keys :
    ∀ (frames : List SFrame) (g : Nat) (base : ADF),
      base.keys.Nodup → (∀ sf ∈ frames, (sf.rows.map Prod.fst).Nodup) →
      ((mergeFrames g base frames).keys.Nodup ∧
        ∀ q, q ∈ (mergeFrames g base frames).keys ↔
          q ∈ base.keys ∨ ∃ sf ∈ frames, q ∈ sf.rows.map Prod.fst) := by
  intro frames
  induction frames with
  | nil =>
    intro g base hbn _
    rw [mergeFrames]
    have hp := sortADF_keys_perm base
    refine ⟨hp.nodup_iff.mpr hbn, fun q => ?_⟩
    rw [hp.mem_iff]
    simp
  | cons sf rest ih =>
    intro g base hbn hfr
    rw [mergeFrames]
    have hsfn : (sf.rows.map Prod.fst).Nodup := hfr sf (List.mem_cons_self _ _)
    have hjoin := joinFullRows_keys_spec base (renameSF g sf) hbn hsfn
    have hnbperm : (sortADF (ADF.mk (base.names ++ (renameSF g sf).names)
        (joinFullRows base (renameSF g sf)))).keys.Perm
        ((joinFullRows base (renameSF g sf)).map Prod.fst) := sortADF_keys_perm _
    have hnb_nodup : (sortADF (ADF.mk (base.names ++ (renameSF g sf).names)
        (joinFullRows base (renameSF g sf)))).keys.Nodup :=
      hnbperm.nodup_iff.mpr hjoin.1
    obtain ⟨hnod, hmem⟩ := ih (g + sf.names.length) _ hnb_nodup
      (fun x hx => hfr x (List.mem_cons_of_mem _ hx))
    refine ⟨hnod, fun q => ?_⟩
    rw [hmem q, hnbperm.mem_iff, hjoin.2 q]
    constructor
    · rintro ((h | h) | ⟨x, hx, h⟩)
      · exact Or.inl h
      · exact Or.inr ⟨sf, List.mem_cons_self _ _, h⟩
      · exact Or.inr ⟨x, List.mem_cons_of_mem _ hx, h⟩
    · rintro (h | ⟨x, hx, h⟩)
      · exact Or.inl (Or.inl h)
      · rcases List.mem_cons.mp hx with rfl | hx2
        · exact Or.inl (Or.inr h)
        · exact Or.inr ⟨x, hx2, h⟩

theorem mergeFrames_rows_sorted :
    ∀ (frames : List SFrame) (g : Nat) (base : ADF),
      (mergeFrames g base frames).rows.Sorted rowLe := by
  intro frames
  induction frames with
  | nil =>
    intro g base
    exact sortRows_sorted _
  | cons sf rest ih =>
    intro g base
    rw [mergeFrames]
    exact ih _ _

theorem selectStep_ok_none {f : RawFrame} (h : selectStep f = Except.ok none) :
    f.height = 0 := by
  by_cases h0 : f.height = 0
  · exact h0
  · exfalso
    simp only [selectStep, if_neg h0] at h
    by_cases h1 : f.hasTimestamp
    · rw [if_neg (by simp [h1])] at h
      by_cases h2 : (selectValueCols f).isEmpty
      · rw [if_pos h2] at h
        simp at h
      · rw [if_neg h2] at h
        simp at h
    · rw [if_pos (by simp [h1])] at h
      simp at h

theorem selectStep_ok_some {f : RawFrame} {sf : SFrame}
    (h : selectStep f = Except.ok (some sf)) :
    sf.rows = rawToRows f (selectValueCols f) ∧
    sf.names = (selectValueCols f).map Prod.fst := by
  by_cases h0 : f.height = 0
  · exfalso
    simp only [selectStep, if_pos h0] at h
    simp at h
  · simp only [selectStep, if_neg h0] at h
    by_cases h1 : f.hasTimestamp
    · rw [if_neg (by simp [h1])] at h
      by_cases h2 : (selectValueCols f).isEmpty
      · rw [if_pos h2] at h
        simp at h
      · rw [if_neg h2] at h
        simp only [Except.ok.injEq, Option.some.injEq] at h
        rw [← h]
        exact ⟨rfl, rfl⟩
    · rw [if_pos (by simp [h1])] at h
      simp at h

theorem range_getD_map {α : Type} (l : List α) (d : α) :
    (List.range l.length).map (fun k => Option.getD (l.get? k) d) = l := by
  induction l with
  | nil => rfl
  | cons a t ih =>
    rw [List.length_cons, List.range_succ_eq_map, List.map_cons, List.map_map]
    have h2 : ((fun k => Option.getD ((a :: t).get? k) d) ∘ Nat.succ) =
        (fun k => Option.getD (t.get? k) d) := rfl
    rw [h2, ih]
    rfl

theorem rawToRows_keys {f : RawFrame} (hwf : f.ts.length = f.height)
    (cols : List (String × List (Option Rat))) :
    (rawToRows f cols).map Prod.fst = f.ts := by
  unfold rawToRows
  rw [List.map_map, ← hwf]
  exact range_getD_map f.ts 0

theorem parseBuffers_spec :
    ∀ (bufs : List (Option RawFrame)) (frames : List SFrame),
      parseBuffers bufs = Except.ok frames →
      (∀ f, some f ∈ bufs → f.WF ∧ f.ts.Nodup) →
      (∀ sf ∈ frames, (sf.rows.map Prod.fst).Nodup) ∧
      (∀ q, (∃ sf ∈ frames, q ∈ sf.rows.map Prod.fst) ↔
        ∃ f, some f ∈ bufs ∧ q ∈ f.ts) := by
  intro bufs
  induction bufs with
  | nil =>
    intro frames h _
    have hf : frames = [] := by
      simp only [parseBuffers, Except.ok.injEq] at h
      exact h.symm
    subst hf
    simp
  | cons b rest ih =>
    intro frames h hwf
    cases b with
    | none =>
      rw [parseBuffers] at h
      simp at h
    | some f =>
      rw [parseBuffers] at h
      have hwff : f.WF ∧ f.ts.Nodup := hwf f (List.mem_cons_self _ _)
      cases hsel : selectStep f with
      | error e =>
        rw [hsel] at h
        simp at h
      | ok osf =>
        rw [hsel] at h
        cases osf with
        | none =>
          have hts : f.ts = [] := by
            have h0 := selectStep_ok_none hsel
            have hlen := hwff.1.1
            rw [h0] at hlen
            exact List.eq_nil_of_length_eq_zero hlen
          obtain ⟨ha, hb⟩ := ih frames h
            (fun f2 hf2 => hwf f2 (List.mem_cons_of_mem _ hf2))
          refine ⟨ha, fun q => ?_⟩
          rw [hb q]
          constructor
          · rintro ⟨f2, hf2, hq⟩
            exact ⟨f2, List.mem_cons_of_mem _ hf2, hq⟩
          · rintro ⟨f2, hf2, hq⟩
            rcases List.mem_cons.mp hf2 with heq | hf2r
            · exfalso
              have : f2 = f := Option.some.inj heq
              subst this
              rw [hts] at hq
              simp at hq
            · exact ⟨f2, hf2r, hq⟩
        | some sf =>
          cases hrest : parseBuffers rest with
          | error e =>
            rw [hrest] at h
            simp at h
          | ok frames2 =>
            rw [hrest] at h
            simp only [Except.ok.injEq] at h
            subst h
            obtain ⟨hsfrows, hsfnames⟩ := selectStep_ok_some hsel
            have hkeys : sf.rows.map Prod.fst = f.ts := by
              rw [hsfrows]
              exact rawToRows_keys hwff.1.1 _
            obtain ⟨ha, hb⟩ := ih frames2 hrest
              (fun f2 hf2 => hwf f2 (List.mem_cons_of_mem _ hf2))
            constructor
            · intro x hx
              rcases List.mem_cons.mp hx with rfl | hx2
              · rw [hkeys]
                exact hwff.2
              · exact ha x hx2
            · intro q
              constructor
              · rintro ⟨sf2, hsf2, hq⟩
                rcases List.mem_cons.mp hsf2 with rfl | h2
                · exact ⟨f, List.mem_cons_self _ _, hkeys ▸ hq⟩
                · obtain ⟨f2, hf2, hq2⟩ := (hb q).mp ⟨sf2, h2, hq⟩
                  exact ⟨f2, List.mem_cons_of_mem _ hf2, hq2⟩
              · rintro ⟨f2, hf2, hq⟩
                rcases List.mem_cons.mp hf2 with heq | h2
                · have heq2 : f2 = f := Option.some.inj heq
                  subst heq2
                  exact ⟨sf, List.mem_cons_self _ _, hkeys.symm ▸ hq⟩
                · obtain ⟨sf2, hsf2, hq2⟩ := (hb q).mpr ⟨f2, h2, hq⟩
                  exact ⟨sf2, List.mem_cons_of_mem _ hsf2, hq2⟩

/-- Counterexample to C2 as stated: the merge accepts a buffer whose
`timestamp` column contains the value 1 twice; that timestamp appears twice
in the output, not exactly once. -/
theorem c2_counterexample :
    gatherArrowToAlignedDf
        [some (RawFrame.mk 2 true [1, 1] [(valueName, [some 0, some 1])])] =
      Except.ok { names := [valueColName 0], rows := [(1, [some 0]), (1, [some 1])] } ∧
    ADF.keys { names := [valueColName 0], rows := [(1, [some 0]), (1, [some 1])] } =
      [1, 1] ∧
    ¬ ([(1 : Rat), 1].Nodup) := by
  refine ⟨rfl, rfl, by simp⟩

/-- C2 amended: for input buffers that the merge accepts and whose timestamps
are distinct *within each buffer*, the output timestamp column is strictly
increasing (hence sorted with no duplicates) and contains exactly the union
of the input buffers' timestamps, each exactly once. -/
theorem c2_outer_join_union (bufs : List (Option RawFrame)) (adf : ADF)
    (hwf : ∀ f, some f ∈ bufs → f.WF ∧ f.ts.Nodup)
    (h : gatherArrowToAlignedDf bufs = Except.ok adf) :
    adf.keys.Pairwise (fun a b => a < b) ∧
    (∀ q, q ∈ adf.keys ↔ ∃ f, some f ∈ bufs ∧ q ∈ f.ts) ∧
    (∀ q, (∃ f, some f ∈ bufs ∧ q ∈ f.ts) → adf.keys.count q = 1) := by
  rw [gatherArrowToAlignedDf] at h
  by_cases hb : bufs.isEmpty
  · rw [if_pos hb] at h
    simp at h
  · rw [if_neg hb] at h
    cases hp : parseBuffers bufs with
    | error e =>
      rw [hp] at h
      simp at h
    | ok frames =>
      rw [hp] at h
      cases frames with
      | nil => simp at h
      | cons sf rest =>
        have hadf : mergeFrames sf.names.length (renameSF 0 sf) rest = adf := by
          simpa using h
        obtain ⟨hfr_nodup, hfr_mem⟩ := parseBuffers_spec bufs (sf :: rest) hp hwf
        have hbase_keys : (renameSF 0 sf).keys = sf.rows.map Prod.fst := rfl
        have hbase_nodup : (renameSF 0 sf).keys.Nodup := by
          rw [hbase_keys]
          exact hfr_nodup sf (List.mem_cons_self _ _)
        obtain ⟨hnodup, hmem⟩ := mergeFrames_keys rest sf.names.length (renameSF 0 sf)
          hbase_nodup (fun x hx => hfr_nodup x (List.mem_cons_of_mem _ hx))
        have hmem2 : ∀ q, q ∈ adf.keys ↔ ∃ f, some f ∈ bufs ∧ q ∈ f.ts := by
          intro q
          rw [← hadf, hmem q, hbase_keys, ← hfr_mem q]
          constructor
          · rintro (h1 | ⟨x, hx, h1⟩)
            · exact ⟨sf, List.mem_cons_self _ _, h1⟩
            · exact ⟨x, List.mem_cons_of_mem _ hx, h1⟩
          · rintro ⟨x, hx, h1⟩
            rcases List.mem_cons.mp hx with rfl | hx2
            · exact Or.inl h1
            · exact Or.inr ⟨x, hx2, h1⟩
        have hsorted : adf.rows.Sorted rowLe := by
          rw [← hadf]
          exact mergeFrames_rows_sorted rest _ _
        have hkeys_le : adf.keys.Pairwise (fun a b => a ≤ b) :=
          List.Pairwise.map Prod.fst (fun x y (hxy : rowLe x y) => hxy) hsorted
        have hnodupa : adf.keys.Nodup := by
          rw [← hadf]
          exact hnodup
        refine ⟨?_, hmem2, ?_⟩
        · exact (hkeys_le.and hnodupa).imp (fun hp2 => lt_of_le_of_ne hp2.1 hp2.2)
        · intro q hq
          exact List.count_eq_one_of_mem hnodupa ((hmem2 q).mpr hq)

/-- Witness for C2: a single one-row buffer. -/
theorem c2_witness :
    (∀ f, some f ∈ ([some (RawFrame.mk 1 true [5] [(valueName, [some 2])])] :
        List (Option RawFrame)) →
      f.WF ∧ f.ts.Nodup) ∧
    (({ names := [valueColName 0], rows := [(5, [some 2])] } : ADF).keys.Pairwise
        (fun a b => a < b) ∧
      (∀ q, q ∈ ({ names := [valueColName 0], rows := [(5, [some 2])] } : ADF).keys ↔
        ∃ f, some f ∈ ([some (RawFrame.mk 1 true [5] [(valueName, [some 2])])] :
          List (Option RawFrame)) ∧ q ∈ f.ts) ∧
      (∀ q, (∃ f, some f ∈ ([some (RawFrame.mk 1 true [5] [(valueName, [some 2])])] :
          List (Option RawFrame)) ∧ q ∈ f.ts) →
        ({ names := [valueColName 0], rows := [(5, [some 2])] } : ADF).keys.count q = 1)) := by
  constructor
  · intro f hf
    rcases List.mem_cons.mp hf with heq | h2
    · have hfe0 : f = RawFrame.mk 1 true [5] [(valueName, [some 2])] :=
        Option.some.inj heq
      subst hfe0
      refine ⟨⟨rfl, ?_⟩, by simp⟩
      intro p hp
      rcases List.mem_singleton.mp hp with rfl
      rfl
    · simp at h2
  · exact c2_outer_join_union
      [some (RawFrame.mk 1 true [5] [(valueName, [some 2])])]
      { names := [valueColName 0], rows := [(5, [some 2])] }
      (by
        intro f hf
        rcases List.mem_cons.mp hf with heq | h2
        · have hfe : f = RawFrame.mk 1 true [5] [(valueName, [some 2])] :=
            Option.some.inj heq
          subst hfe
          refine ⟨⟨rfl, ?_⟩, by simp⟩
          intro p hp
          rcases List.mem_singleton.mp hp with rfl
          rfl
        · simp at h2)
      rfl

end DataHub
